import Mathlib

/-!
# Costa VS Code extension — verification of the token lifecycle and usage stream

Shallow embedding of the extension's OAuth2 client (`oauth.ts`, most complete
variant: the one with `forceRefreshToken`/`refreshTokenIfNeeded` and the
redirect-callback login flow) and of its usage-stream client
(`usageStream.ts`, polling variant, and the SSE variant's `parseSSE`).

Conventions:
* Time is epoch seconds as `ℤ`.  The source compares `Date.now() / 1000`
  (a real number) against integer `expires_at` values; the embedding works at
  one-second granularity, which is exact at every comparison the claims use.
* JavaScript truthiness is modelled explicitly where the source relies on it
  (`!s` for strings, `expires_at &&` for numbers).
* `await` suspension points matter only for the concurrency model, which cuts
  each call into atomic segments at its `await`s.
* Host storage (`context.secrets` / `context.globalState`) is modelled as two
  slots carried in the client state; the JSON round trip through the secret
  store is modelled as storing the token value itself (see `loadToken` below
  for the string-level model with a fallible parse, used for the fail-soft
  claim).
-/

namespace Costa

/-- JS truthiness of a `string | undefined | null` value: absent and `""` are falsy. -/
def truthyStr : Option String → Bool
  | none => false
  | some s => !s.isEmpty

/-- JS `a.split(c)` on the character list of a string. -/
def splitOnChar (c : Char) : List Char → List (List Char)
  | [] => [[]]
  | x :: xs =>
    let rest := splitOnChar c xs
    if x == c then [] :: rest
    else
      match rest with
      | [] => [[x]]
      | r :: rs => (x :: r) :: rs

/-- Whether `p` is a leading segment of `s` (JS `s.startsWith(p)`). -/
def leadsWith : List Char → List Char → Bool
  | [], _ => true
  | _ :: _, [] => false
  | a :: ps, b :: ss => a == b && leadsWith ps ss

/-- JS `s.includes(pat)` for a nonempty pattern. -/
def containsSubL (pat : List Char) : List Char → Bool
  | [] => leadsWith pat []
  | x :: ss => leadsWith pat (x :: ss) || containsSubL pat ss

/-- JS `s.trim()`. -/
def trimL (cs : List Char) : List Char :=
  ((cs.dropWhile Char.isWhitespace).reverse.dropWhile Char.isWhitespace).reverse

/-- JS `parts.join('\n')`. -/
def joinNl : List (List Char) → List Char
  | [] => []
  | [x] => x
  | x :: xs => x ++ '\n' :: joinNl xs

/-- The stored token shape (interface `OAuthToken` in `oauth.ts`). -/
structure OAuthToken where
  access_token : String
  refresh_token : Option String := none
  expires_at : Option ℤ := none
  token_type : Option String := none
deriving Repr, DecidableEq

/-- The token-endpoint response shape (interface `TokenResponse` in `oauth.ts`). -/
structure TokenResponse where
  access_token : String
  refresh_token : Option String := none
  expires_in : ℤ := 3600
  token_type : String := "Bearer"
deriving Repr, DecidableEq

/--
Mutable fields of the `OAuth2Client` singleton together with the host-storage
slots it uses.  `hasContext` is whether `setContext` has run; `storedToken` is
the `costa.oauth2.token` secret, `storedState` the `costa.oauth2.state`
global-state entry.  `pendingLogin` holds the identity of the promise handle a
pending `login()` call is blocked on, when one exists.
-/
structure ClientState where
  token : Option OAuthToken
  hasContext : Bool
  storedToken : Option OAuthToken
  storedState : Option String
  codeVerifier : Option String
  pendingLogin : Option Nat
deriving Repr, DecidableEq

/--
The expiry test in `getAccessToken`:
`this.token.expires_at && Date.now() / 1000 > this.token.expires_at - 300`.
JS truthiness sends both an absent and a zero `expires_at` to the
not-near-expiry branch.
-/
def nearExpiry (t : OAuthToken) (now : ℤ) : Bool :=
  match t.expires_at with
  | some e => decide (e ≠ 0) && decide (e - 300 < now)
  | none => false

/-- `clearToken()`: deletes the persisted token and CSRF state, when a context is set. -/
def clearTokenEff (st : ClientState) : ClientState :=
  if st.hasContext then { st with storedToken := none, storedState := none } else st

/-- `saveToken()`: persists the in-memory token when both it and the context exist. -/
def saveTokenEff (st : ClientState) : ClientState :=
  match st.token with
  | some t => if st.hasContext then { st with storedToken := some t } else st
  | none => st

/-- The value `loadToken()` yields inside `getAccessToken`'s lazy load
(value-level view of storage; parse failures are covered by `loadToken` below). -/
def loadTokenEff (st : ClientState) : Option OAuthToken :=
  if st.hasContext then st.storedToken else none

/-- Outcome of the one `refreshAccessToken` HTTP round trip: `Except.error`
models the function throwing (`RefreshFailed` or configuration error), `ok`
carries the `OAuthToken` it builds from the JSON response. -/
abbrev RefreshNet := Except Unit OAuthToken

/-- Result of one `getAccessToken`/`forceRefreshToken` call: the returned value,
the state it leaves behind, and how many refresh HTTP requests it issued. -/
structure TokenCallOut where
  result : Option String
  st : ClientState
  refreshCalls : Nat
deriving Repr, DecidableEq

/-- `refreshTokenIfNeeded()` (the private helper `getAccessToken` delegates to
once the token is near expiry). -/
def refreshTokenIfNeeded (st : ClientState) (net : RefreshNet) : TokenCallOut :=
  if truthyStr (st.token.bind (·.refresh_token)) then
    match net with
    | .ok newTok =>
      let st1 := saveTokenEff { st with token := some newTok }
      { result := st1.token.map (·.access_token), st := st1, refreshCalls := 1 }
    | .error _ =>
      let st1 := clearTokenEff st
      { result := none, st := { st1 with token := none }, refreshCalls := 1 }
  else
    let st1 := clearTokenEff st
    { result := none, st := { st1 with token := none }, refreshCalls := 0 }

/-- `getAccessToken()` run by a single caller with no interleaving: lazy load,
expiry check with the 5-minute buffer, refresh delegation. -/
def getAccessToken (st : ClientState) (now : ℤ) (net : RefreshNet) : TokenCallOut :=
  let st' :=
    match st.token with
    | none =>
      match loadTokenEff st with
      | some stored => { st with token := some stored }
      | none => st
    | some _ => st
  match st'.token with
  | none => { result := none, st := st', refreshCalls := 0 }
  | some t =>
    if nearExpiry t now then refreshTokenIfNeeded st' net
    else { result := some t.access_token, st := st', refreshCalls := 0 }

/-- `forceRefreshToken()`: `if (!this.token || !this.token.refresh_token) return null`,
otherwise one refresh round trip, saving on success and clearing on failure. -/
def forceRefreshToken (st : ClientState) (net : RefreshNet) : TokenCallOut :=
  match st.token with
  | none => { result := none, st := st, refreshCalls := 0 }
  | some t =>
    if !truthyStr t.refresh_token then { result := none, st := st, refreshCalls := 0 }
    else
      match net with
      | .ok newTok =>
        let st1 := saveTokenEff { st with token := some newTok }
        { result := st1.token.map (·.access_token), st := st1, refreshCalls := 1 }
      | .error _ =>
        let st1 := clearTokenEff st
        { result := none, st := { st1 with token := none }, refreshCalls := 1 }

/-- `isLoggedIn()`: `!!this.token?.access_token`. -/
def isLoggedIn (st : ClientState) : Bool :=
  truthyStr (st.token.map (·.access_token))

/-- `loadToken()` at the storage-string level (the fail-soft contract):
`secrets` is the raw blob under `costa.oauth2.token` (`none` = key absent) and
`parse` abstracts `JSON.parse`; the `catch` maps a parse throw to `null`, and a
falsy (absent or empty) blob short-circuits to `null`. -/
def loadToken (hasContext : Bool) (secrets : Option String)
    (parse : String → Except String OAuthToken) : Option OAuthToken :=
  if !hasContext then none
  else
    match secrets with
    | none => none
    | some s =>
      if s.isEmpty then none
      else
        match parse s with
        | .ok t => some t
        | .error _ => none

/-! ## The redirect-callback handler registered by `login()` -/

/-- Query parameters of the redirect URI (`URLSearchParams.get` yields `null`
for an absent key, modelled as `none`). -/
structure CallbackQuery where
  code : Option String
  state : Option String
  error : Option String
deriving Repr, DecidableEq

/-- Outcome of the one `exchangeCodeForToken` HTTP round trip. -/
abbrev ExchangeNet := Except Unit TokenResponse

/-- What the callback handler did: the value it resolved the pending login
with (if a pending login existed), whether the token-exchange request was
issued, and the state left behind. -/
structure CallbackOut where
  resolved : Option Bool
  exchangeCalled : Bool
  st : ClientState
deriving Repr, DecidableEq

/-- `this.pendingLogin?.resolve(b)`: resolves only when a pending login exists. -/
def resolvePending (st : ClientState) (b : Bool) : Option Bool :=
  if st.pendingLogin.isSome then some b else none

/--
The JS strict inequality `storedState !== receivedState`, where the left side
is `string | undefined` (global state read) and the right `string | null`
(query parameter): two absent values are still strictly unequal.
-/
def stateMismatch (stored received : Option String) : Bool :=
  match stored, received with
  | some a, some b => a != b
  | _, _ => true

/-- The body of the `costa.handleOAuthCallback` command registered by `login()`:
error check, code check, CSRF-state verification, then the code exchange. -/
def handleOAuthCallback (st : ClientState) (q : CallbackQuery) (now : ℤ)
    (net : ExchangeNet) : CallbackOut :=
  if truthyStr q.error then
    { resolved := resolvePending st false, exchangeCalled := false,
      st := { st with pendingLogin := none } }
  else if !truthyStr q.code then
    { resolved := resolvePending st false, exchangeCalled := false,
      st := { st with pendingLogin := none } }
  else
    let stored := if st.hasContext then st.storedState else none
    if stateMismatch stored q.state then
      { resolved := resolvePending st false, exchangeCalled := false,
        st := { st with pendingLogin := none } }
    else
      match net with
      | .ok r =>
        let newTok : OAuthToken :=
          { access_token := r.access_token, refresh_token := r.refresh_token,
            expires_at := some (now + r.expires_in), token_type := some r.token_type }
        let st1 := saveTokenEff { st with token := some newTok }
        { resolved := resolvePending st true, exchangeCalled := true,
          st := { st1 with pendingLogin := none } }
      | .error _ =>
        { resolved := resolvePending st false, exchangeCalled := true,
          st := { st with pendingLogin := none } }

/-! ## `login()` up to its suspension on the redirect -/

/-- What a `login()` call produces before any redirect arrives: an immediate
boolean, or a pending promise identified by its handle. -/
inductive LoginOutcome
  | immediate (b : Bool)
  | pending (handle : Nat)
deriving Repr, DecidableEq

/-- Result of running `login()` to the point where it waits for the callback:
the outcome, the state left behind, and how many times `env.openExternal`
opened an authorization URL. -/
structure LoginOut where
  outcome : LoginOutcome
  st : ClientState
  urlsOpened : Nat
deriving Repr, DecidableEq

/--
One `login()` call run to its suspension point.  `verifier` and `stateRand`
stand for the two freshly drawn random values, `configOk` for the truthiness
of `OAUTH2_CLIENT_ID`/`OAUTH2_REDIRECT_URI`, and `handle` for the identity of
the promise created for this call.  Mirrors the source order: already-logged-in
short-circuit, PKCE generation, CSRF state persisted, configuration check,
browser opened, `pendingLogin` installed.
-/
def loginStart (st : ClientState) (verifier stateRand : String) (configOk : Bool)
    (handle : Nat) : LoginOut :=
  if isLoggedIn st then
    { outcome := .immediate true, st := st, urlsOpened := 0 }
  else
    let st1 := { st with codeVerifier := some verifier }
    let st2 := if st1.hasContext then { st1 with storedState := some stateRand } else st1
    if !configOk then
      { outcome := .immediate false, st := st2, urlsOpened := 0 }
    else
      { outcome := .pending handle, st := { st2 with pendingLogin := some handle },
        urlsOpened := 1 }

/-! ## UsageStream (polling variant, `usageStream.ts`) — timers made explicit

The model tracks every live JS timer with an id.  `reconnectTimeout` and
`pollInterval` mirror the two handle fields of the class; the 1-second
`setTimeout(() => this.scheduleReconnect(), 1000)` issued inside
`fetchUsageData` on a successful forced refresh stores its handle nowhere,
which the model renders as a live timer no field points at. -/

/-- What a live timer will do when it fires. -/
inductive TimerKind
  | reconnect5s    -- the 5 s timeout created by `scheduleReconnect`, tracked in `reconnectTimeout`
  | retryAfter401  -- the anonymous 1 s timeout created inside `fetchUsageData`
  | pollTick       -- the 30 s interval created by `setupPolling`, tracked in `pollInterval`
deriving Repr, DecidableEq

/-- State of one `UsageStream` instance plus the JS timer queue. -/
structure StreamState where
  live : List (Nat × TimerKind)
  reconnectTimeout : Option Nat
  pollInterval : Option Nat
  isConnecting : Bool
  nextId : Nat
  attempts : Nat   -- `connect()` invocations that passed the `isConnecting` guard
deriving Repr, DecidableEq

/-- `clearTimeout`/`clearInterval` on a stored handle (a no-op on `none`). -/
def cancelTimer (handle : Option Nat) (live : List (Nat × TimerKind)) :
    List (Nat × TimerKind) :=
  match handle with
  | none => live
  | some i => live.filter (fun p => p.1 != i)

/-- `scheduleReconnect()`: clears any tracked reconnect timeout, then installs a
fresh 5-second one and stores its handle. -/
def scheduleReconnect (s : StreamState) : StreamState :=
  { s with live := cancelTimer s.reconnectTimeout s.live ++ [(s.nextId, .reconnect5s)],
           reconnectTimeout := some s.nextId,
           nextId := s.nextId + 1 }

/-- `setupPolling()`: clears any tracked polling interval, then installs a fresh
30-second one and stores its handle. -/
def setupPolling (s : StreamState) : StreamState :=
  { s with live := cancelTimer s.pollInterval s.live ++ [(s.nextId, .pollTick)],
           pollInterval := some s.nextId,
           nextId := s.nextId + 1 }

/-- Environment outcome of one `fetchUsageData()` round trip. -/
inductive FetchOutcome
  | ok                 -- 2xx: data parsed and possibly emitted; returns normally
  | fail               -- no token, transport error or non-auth HTTP error: throws
  | auth401RefreshOk   -- 401/403 and `forceRefreshToken()` returned a token:
                       -- schedules the untracked 1 s timeout, returns normally
  | auth401RefreshFail -- 401/403 and the forced refresh failed: schedules a
                       -- backoff reconnect, then throws
deriving Repr, DecidableEq

/-- Timer effect of one `fetchUsageData()` call, and whether it threw. -/
def fetchUsageDataEff (s : StreamState) : FetchOutcome → StreamState × Bool
  | .ok => (s, false)
  | .fail => (s, true)
  | .auth401RefreshOk =>
    ({ s with live := s.live ++ [(s.nextId, .retryAfter401)], nextId := s.nextId + 1 },
     false)
  | .auth401RefreshFail => (scheduleReconnect s, true)

/-- Events of the cooperative event loop driving one `UsageStream` instance. -/
inductive StreamEvent
  /-- `connect()` invoked (manually or by a timer callback); runs its
  synchronous head: the `isConnecting` guard and flag set. -/
  | connectBegin
  /-- the `await this.fetchUsageData()` inside a proceeding `connect()`
  resolves with the given outcome; `connect()` then finishes:
  `setupPolling` on success, `scheduleReconnect` in the catch, and the
  `finally` resets `isConnecting`. -/
  | connectEnd (out : FetchOutcome)
  /-- a live timer fires; for a poll tick, `out` is the outcome of the
  `fetchUsageData()` call the tick makes. -/
  | timerFire (id : Nat) (out : FetchOutcome)
  /-- `disconnect()` invoked. -/
  | disconnectCall
deriving Repr, DecidableEq

/-- Synchronous head of `connect()`: the reentrancy guard. -/
def connectBeginEff (s : StreamState) : StreamState :=
  if s.isConnecting then s
  else { s with isConnecting := true, attempts := s.attempts + 1 }

/-- `disconnect()`: clears the two tracked handles. -/
def disconnectEff (s : StreamState) : StreamState :=
  let live1 := cancelTimer s.reconnectTimeout s.live
  let live2 := cancelTimer s.pollInterval live1
  { s with live := live2, reconnectTimeout := none, pollInterval := none }

/-- One step of the event loop. -/
def stepStream (s : StreamState) : StreamEvent → StreamState
  | .connectBegin => connectBeginEff s
  | .connectEnd out =>
    if s.isConnecting then
      let (s1, threw) := fetchUsageDataEff s out
      let s2 := if threw then scheduleReconnect s1 else setupPolling s1
      { s2 with isConnecting := false }
    else s
  | .timerFire id out =>
    match (s.live.filter (fun p => p.1 == id)).head? with
    | none => s
    | some (_, kind) =>
      match kind with
      | .reconnect5s =>
        -- one-shot: the timer leaves the queue, then its callback calls `connect()`
        connectBeginEff { s with live := s.live.filter (fun p => p.1 != id) }
      | .retryAfter401 =>
        -- one-shot: its callback is `() => this.scheduleReconnect()`
        scheduleReconnect { s with live := s.live.filter (fun p => p.1 != id) }
      | .pollTick =>
        -- the interval repeats, so the timer stays live; the tick runs
        -- `fetchUsageData().catch(...)`, whose catch re-schedules exactly when
        -- the thrown message carries a 401/403
        let (s2, threw) := fetchUsageDataEff s out
        if threw && out == .auth401RefreshFail then scheduleReconnect s2 else s2
  | .disconnectCall => disconnectEff s

/-- Run the event loop from a state over a list of events. -/
def runStream (s : StreamState) (evs : List StreamEvent) : StreamState :=
  evs.foldl stepStream s

/-- A freshly constructed `UsageStream`. -/
def streamInit : StreamState :=
  { live := [], reconnectTimeout := none, pollInterval := none,
    isConnecting := false, nextId := 0, attempts := 0 }

/-- Number of live polling intervals (the "transport" of the polling variant). -/
def pollCount (live : List (Nat × TimerKind)) : Nat :=
  (live.filter (fun p => p.2 == TimerKind.pollTick)).length

/-! ## Concurrent `getAccessToken()` callers

JS runs async functions atomically between `await`s, so interleaving happens
exactly at suspension points.  Each caller of `getAccessToken()` is a program
counter cut at the `await`s of `getAccessToken`/`refreshTokenIfNeeded`; the
client fields are shared. -/

/-- Program counter of one `getAccessToken()` caller. -/
inductive GatPc
  | start                      -- before the synchronous head runs
  | awaitLoad                  -- suspended on `await this.loadToken()`
  | awaitRefresh               -- suspended on `await this.refreshAccessToken(...)`
  | awaitSaveOk                -- suspended on `await this.saveToken()` after a successful refresh
  | awaitClearFail             -- suspended on `await this.clearToken()` after a failed refresh
  | awaitClearNoRt             -- suspended on `await this.clearToken()` with no refresh token held
  | done (result : Option String)
deriving Repr, DecidableEq

/-- Shared client state plus the set of concurrent callers. -/
structure GatSystem where
  st : ClientState
  now : ℤ
  callers : List GatPc
  refreshCalls : Nat   -- refresh HTTP requests issued so far, across all callers
deriving Repr, DecidableEq

/-- The synchronous code from the `if (!this.token) return null` check down to
the next suspension or return: expiry check, then `refreshTokenIfNeeded`'s
refresh-token test, which either issues the refresh request (the `1`) or heads
into the clearing branch. -/
def gatAfterLoad (st : ClientState) (now : ℤ) : GatPc × ClientState × Nat :=
  match st.token with
  | none => (.done none, st, 0)
  | some t =>
    if nearExpiry t now then
      if truthyStr t.refresh_token then (.awaitRefresh, st, 1)
      else (.awaitClearNoRt, st, 0)
    else (.done (some t.access_token), st, 0)

/-- Advance one caller by one atomic segment.  `net` is the response its
in-flight refresh request resolves with, when that is what it is waiting on. -/
def stepGatPc (st : ClientState) (now : ℤ) (net : RefreshNet) :
    GatPc → GatPc × ClientState × Nat
  | .start =>
    match st.token with
    | none => (.awaitLoad, st, 0)
    | some _ => gatAfterLoad st now
  | .awaitLoad =>
    -- `const storedToken = await this.loadToken(); if (storedToken) this.token = storedToken`
    let st1 :=
      match loadTokenEff st with
      | some stored => { st with token := some stored }
      | none => st
    gatAfterLoad st1 now
  | .awaitRefresh =>
    match net with
    | .ok newTok => (.awaitSaveOk, { st with token := some newTok }, 0)
    | .error _ => (.awaitClearFail, st, 0)
  | .awaitSaveOk =>
    -- `await this.saveToken(); return this.token.access_token` (reads the
    -- shared field again after resuming)
    let st1 := saveTokenEff st
    (.done (st1.token.map (·.access_token)), st1, 0)
  | .awaitClearFail =>
    let st1 := clearTokenEff st
    (.done none, { st1 with token := none }, 0)
  | .awaitClearNoRt =>
    let st1 := clearTokenEff st
    (.done none, { st1 with token := none }, 0)
  | .done r => (.done r, st, 0)

/-- Scheduler step: advance caller `i`. -/
def stepGat (sys : GatSystem) (i : Nat) (net : RefreshNet) : GatSystem :=
  match sys.callers[i]? with
  | none => sys
  | some pc =>
    let (pc', st', n) := stepGatPc sys.st sys.now net pc
    { sys with st := st', callers := sys.callers.set i pc',
               refreshCalls := sys.refreshCalls + n }

/-- Run a schedule: each entry names the caller to advance and the network
response in flight for it. -/
def runGat (sys : GatSystem) (sched : List (Nat × RefreshNet)) : GatSystem :=
  sched.foldl (fun s p => stepGat s p.1 p.2) sys

/-! ## `parseSSE` (SSE variant) -/

/-- Presence of the fields `parseSSE` inspects on the decoded JSON value
(its `x !== undefined` checks). -/
structure SSEFields where
  ping : Bool
  points : Bool
  total_points : Bool
  context_length : Bool
deriving Repr, DecidableEq

/-- The `data:`-line payload extraction in `parseSSE`: split the block into
lines, keep the `data:`-prefixed ones, drop the 5-character prefix, trim, and
re-join with newlines. -/
def sseEventData (data : List Char) : List Char :=
  joinNl (((splitOnChar '\n' data).filter (fun l => leadsWith "data:".data l)).map
    (fun l => trimL (l.drop 5)))

/-- `parseSSE` with the keepalive and ping guards: whether the inbound block
makes the client emit a `usage` event.  `decode` abstracts `JSON.parse`
composed with the field-presence checks; `none` models a parse throw, which
the surrounding `catch` swallows. -/
def parseSSE (decode : List Char → Option SSEFields) (data : List Char) : Bool :=
  if containsSubL "event: keepalive".data data then false
  else
    let eventData := sseEventData data
    if eventData.isEmpty then false
    else
      match decode eventData with
      | none => false
      | some f =>
        if f.ping && !f.points then false
        else f.points || f.total_points || f.context_length

/-- The claim-side emission predicate for the usage feed: the decoded JSON
carries at least one of the three usage fields. -/
def hasUsageField (f : SSEFields) : Bool :=
  f.points || f.total_points || f.context_length

/-! ## Invariant machinery for the stream model -/

/-- Reachable-state invariant of the stream model: timer ids are below the
allocator, live ids are distinct, and every live polling interval is the one
the `pollInterval` field tracks. -/
def StreamInv (s : StreamState) : Prop :=
  (∀ p ∈ s.live, p.1 < s.nextId) ∧
  (s.live.map Prod.fst).Nodup ∧
  (∀ p ∈ s.live, p.2 = TimerKind.pollTick → s.pollInterval = some p.1)

/-! ## Concrete example values used by the claim instances -/

/-- An expired credential that still holds a refresh token. -/
def tokExpired : OAuthToken :=
  { access_token := "old", refresh_token := some "r",
    expires_at := some 100, token_type := some "Bearer" }

/-- The renewed credential a successful refresh responds with. -/
def tokRenewed : OAuthToken :=
  { access_token := "new", refresh_token := some "r2",
    expires_at := some 5000, token_type := some "Bearer" }

/-- A long-expired credential whose `expires_at` is the epoch itself. -/
def tokEpochZero : OAuthToken :=
  { access_token := "stale", refresh_token := none,
    expires_at := some 0, token_type := none }

/-- A client (context set) holding `tokExpired` in memory and in storage. -/
def stExpired : ClientState :=
  { token := some tokExpired, hasContext := true, storedToken := some tokExpired,
    storedState := none, codeVerifier := none, pendingLogin := none }

/-- A client (context set) holding `tokEpochZero` in memory and in storage. -/
def stEpochZero : ClientState :=
  { token := some tokEpochZero, hasContext := true, storedToken := some tokEpochZero,
    storedState := some "s", codeVerifier := none, pendingLogin := none }

/-- A freshly constructed, unauthenticated client with its context set. -/
def stFresh : ClientState :=
  { token := none, hasContext := true, storedToken := none,
    storedState := none, codeVerifier := none, pendingLogin := none }

/-- Two concurrent `getAccessToken()` callers against `stExpired` at `now = 1000`. -/
def twoCallers : GatSystem :=
  { st := stExpired, now := 1000, callers := [.start, .start], refreshCalls := 0 }

/-- The feed block `data: {"ping": 1, "total_points": 100}` (a heartbeat that
nevertheless carries a usage field). -/
def pingWithUsageBlock : List Char :=
  ("data: " ++ "\x7b\"ping\": 1, \"total_points\": 100\x7d").data

/-- The payload `parseSSE` extracts from `pingWithUsageBlock`. -/
def pingWithUsagePayload : List Char :=
  "\x7b\"ping\": 1, \"total_points\": 100\x7d".data

/-- A decode oracle for `pingWithUsagePayload`: `ping` and `total_points`
present, `points` and `context_length` absent (what `JSON.parse` yields). -/
def pingWithUsageDecode : List Char → Option SSEFields :=
  fun s => if s = pingWithUsagePayload then some ⟨true, false, true, false⟩ else none

/-- The spec's example block `data: {"points": 10, "total_points": 100, "context_length": 4096}`. -/
def usageBlock : List Char :=
  ("data: " ++ "\x7b\"points\": 10, \"total_points\": 100, \"context_length\": 4096\x7d").data

/-- The payload `parseSSE` extracts from `usageBlock`. -/
def usagePayload : List Char :=
  "\x7b\"points\": 10, \"total_points\": 100, \"context_length\": 4096\x7d".data

/-- Decode oracle for `usagePayload`: the three usage fields present, no `ping`. -/
def usageDecode : List Char → Option SSEFields :=
  fun s => if s = usagePayload then some ⟨false, true, true, true⟩ else none

/-! ## Claims -/

/-- C1: `getAccessToken` has no single-flight guard.  With an expired
credential holding a refresh token, a schedule in which both concurrent
callers run their synchronous head before either refresh response arrives
issues two refresh HTTP requests; completing the run resolves both callers,
still with two requests in total — the claim demands exactly one outstanding
network refresh for N concurrent callers. -/
theorem c1_no_single_flight_two_requests :
    (runGat twoCallers [(0, .ok tokRenewed), (1, .ok tokRenewed)]).refreshCalls = 2 ∧
    (runGat twoCallers [(0, .ok tokRenewed), (1, .ok tokRenewed), (0, .ok tokRenewed),
        (1, .ok tokRenewed), (0, .ok tokRenewed), (1, .ok tokRenewed)]).refreshCalls = 2 ∧
    (runGat twoCallers [(0, .ok tokRenewed), (1, .ok tokRenewed), (0, .ok tokRenewed),
        (1, .ok tokRenewed), (0, .ok tokRenewed), (1, .ok tokRenewed)]).callers
      = [.done (some "new"), .done (some "new")] := by decide

/-- C2: `login()` has no pending-attempt guard.  From an unauthenticated
client, a second `login()` call made before any redirect arrives proceeds like
the first: each call opens an authorization URL (two in total) and the second
installs a new pending handle, replacing — and orphaning — the first caller's
promise, where the claim demands one URL and one pending result. -/
theorem c2_second_login_opens_second_url :
    (loginStart stFresh "v1" "s1" true 1).urlsOpened
        + (loginStart (loginStart stFresh "v1" "s1" true 1).st "v2" "s2" true 2).urlsOpened = 2 ∧
    (loginStart stFresh "v1" "s1" true 1).outcome = .pending 1 ∧
    (loginStart (loginStart stFresh "v1" "s1" true 1).st "v2" "s2" true 2).outcome
      = .pending 2 ∧
    (loginStart (loginStart stFresh "v1" "s1" true 1).st "v2" "s2" true 2).st.pendingLogin
      = some 2 := by decide

/-- C4: the 1-second `setTimeout(() => this.scheduleReconnect(), 1000)` issued
by `fetchUsageData` on a successful forced refresh stores its handle nowhere,
so `disconnect()` cannot cancel it: after connect → 401 with refresh success →
`disconnect()`, that timer is still live; when it and the reconnect it then
schedules fire, a new connection attempt passes the guard (attempts go from 1
to 2 after `disconnect()` returned) — the claim says no reconnect scheduled
before `disconnect()` ever fires. -/
theorem c4_reconnect_fires_after_disconnect :
    (runStream streamInit
        [.connectBegin, .connectEnd .auth401RefreshOk, .disconnectCall]).live
      = [(0, .retryAfter401)] ∧
    (runStream streamInit
        [.connectBegin, .connectEnd .auth401RefreshOk, .disconnectCall]).attempts = 1 ∧
    (runStream streamInit
        [.connectBegin, .connectEnd .auth401RefreshOk, .disconnectCall,
         .timerFire 0 .ok, .timerFire 2 .ok]).attempts = 2 := by decide

/-- C6: a held credential whose `expires_at` lies strictly more than 300
seconds after the current time is returned as-is by `getAccessToken`: its
access token is the result, no refresh request is issued, and neither the
in-memory nor the persisted credential changes. -/
theorem c6_fresh_credential_returned_unchanged
    (st : ClientState) (now : ℤ) (net : RefreshNet) (t : OAuthToken) (e : ℤ)
    (ht : st.token = some t) (he : t.expires_at = some e) (hfresh : now + 300 < e) :
    getAccessToken st now net
      = { result := some t.access_token, st := st, refreshCalls := 0 } := by
  have hne : nearExpiry t now = false := by
    simp only [nearExpiry, he, Bool.and_eq_false_iff, decide_eq_false_iff_not,
      Decidable.not_not]
    right
    omega
  simp [getAccessToken, ht, hne]

/-- C6 witness: a credential expiring at 10000 read at time 100. -/
theorem c6_witness :
    getAccessToken
      { token := some { access_token := "tok", refresh_token := some "r",
                        expires_at := some 10000, token_type := some "Bearer" },
        hasContext := true, storedToken := none, storedState := none,
        codeVerifier := none, pendingLogin := none } 100 (.error ())
      = { result := some "tok",
          st := { token := some { access_token := "tok", refresh_token := some "r",
                                  expires_at := some 10000, token_type := some "Bearer" },
                  hasContext := true, storedToken := none, storedState := none,
                  codeVerifier := none, pendingLogin := none },
          refreshCalls := 0 } :=
  c6_fresh_credential_returned_unchanged _ _ _ _ 10000 rfl rfl (by decide)

/-- C7 counterexample: a held credential with `expires_at = 0` — expired since
the 1970 epoch — and no refresh token.  Because `this.token.expires_at &&`
treats `0` as falsy, `getAccessToken` at time 1000 returns the stale access
token and clears nothing, where the claim demands `null`, a dropped in-memory
credential and a deleted persisted credential. -/
theorem c7_counterexample :
    getAccessToken stEpochZero 1000 (.error ())
      = { result := some "stale", st := stEpochZero, refreshCalls := 0 } := by decide

/-- C7 (amended): with the context set, a *nonzero* `expires_at` within the
5-minute margin, and no (or an empty, hence falsy) refresh token,
`getAccessToken` returns `null`, drops the in-memory credential, and deletes
the persisted credential and CSRF state from storage, with no refresh request. -/
theorem c7_expired_no_refresh_clears
    (st : ClientState) (now : ℤ) (net : RefreshNet) (t : OAuthToken) (e : ℤ)
    (ht : st.token = some t) (hctx : st.hasContext = true)
    (he : t.expires_at = some e) (hez : e ≠ 0) (hexp : e - 300 < now)
    (hrt : truthyStr t.refresh_token = false) :
    getAccessToken st now net
      = { result := none,
          st := { st with token := none, storedToken := none, storedState := none },
          refreshCalls := 0 } := by
  have hne : nearExpiry t now = true := by
    simp [nearExpiry, he, hez, hexp]
  simp [getAccessToken, ht, hne, refreshTokenIfNeeded, hrt, clearTokenEff, hctx]

/-- C7 witness: an expired credential (`expires_at = 400`, read at time 1000)
with no refresh token is cleared everywhere and `null` is returned. -/
theorem c7_witness :
    getAccessToken
      { token := some { access_token := "stale2", refresh_token := none,
                        expires_at := some 400, token_type := none },
        hasContext := true,
        storedToken := some { access_token := "stale2", refresh_token := none,
                              expires_at := some 400, token_type := none },
        storedState := some "s", codeVerifier := none, pendingLogin := none }
      1000 (.error ())
      = { result := none,
          st := { token := none, hasContext := true, storedToken := none,
                  storedState := none, codeVerifier := none, pendingLogin := none },
          refreshCalls := 0 } :=
  c7_expired_no_refresh_clears _ _ _ _ 400 rfl rfl rfl (by decide) (by decide) rfl

/-- C9: loading the stored credential fails soft: whenever the blob is
missing, empty (falsy), or fails to parse, `loadToken` yields `none` — the
`catch` converts the `JSON.parse` throw, so no exception reaches the caller. -/
theorem c9_load_token_fails_soft
    (hasContext : Bool) (secrets : Option String)
    (parse : String → Except String OAuthToken)
    (hbad : ∀ s, secrets = some s → ∃ e, parse s = .error e) :
    loadToken hasContext secrets parse = none := by
  unfold loadToken
  cases hasContext with
  | false => rfl
  | true =>
    cases hsec : secrets with
    | none => rfl
    | some s =>
      obtain ⟨e, he⟩ := hbad s hsec
      by_cases hemp : s.isEmpty <;> simp [hemp, he]

/-- C9 witness: a corrupt blob whose parse throws yields `none`. -/
theorem c9_witness :
    loadToken true (some "not-json") (fun _ => .error "SyntaxError") = none :=
  c9_load_token_fails_soft true (some "not-json") (fun _ => .error "SyntaxError")
    (fun _ _ => ⟨"SyntaxError", rfl⟩)

/-- C10: with no in-memory credential, or one whose refresh token is absent
(or empty, hence falsy), `forceRefreshToken` returns `null` immediately: no
refresh request is issued and the state — including the persisted credential —
is untouched. -/
theorem c10_force_refresh_without_refresh_token_is_noop
    (st : ClientState) (net : RefreshNet)
    (h : st.token = none ∨ ∃ t, st.token = some t ∧ truthyStr t.refresh_token = false) :
    forceRefreshToken st net = { result := none, st := st, refreshCalls := 0 } := by
  rcases h with h | ⟨t, ht, hrt⟩
  · simp [forceRefreshToken, h]
  · simp [forceRefreshToken, ht, hrt]

/-- C10 witness: forcing a refresh with no credential held is a no-op. -/
theorem c10_witness :
    forceRefreshToken stFresh (.ok tokRenewed)
      = { result := none, st := stFresh, refreshCalls := 0 } :=
  c10_force_refresh_without_refresh_token_is_noop stFresh (.ok tokRenewed) (.inl rfl)

/-- C5: a redirect whose `state` differs from the persisted expected state
resolves the pending login with `false` and never reaches the token exchange —
and the branches checked before the state (error present, code missing) also
resolve `false` without an exchange, so the conclusion holds for every such
callback. -/
theorem c5_state_mismatch_resolves_false_without_exchange
    (st : ClientState) (q : CallbackQuery) (now : ℤ) (net : ExchangeNet) (s : String)
    (hpend : st.pendingLogin.isSome = true)
    (hctx : st.hasContext = true) (hstored : st.storedState = some s)
    (hq : q.state ≠ some s) :
    (handleOAuthCallback st q now net).resolved = some false ∧
    (handleOAuthCallback st q now net).exchangeCalled = false := by
  have hmis : stateMismatch (if st.hasContext then st.storedState else none) q.state
      = true := by
    rw [hctx, if_pos rfl, hstored]
    cases hstate : q.state with
    | none => rfl
    | some b =>
      have hsb : s ≠ b := fun hsb => hq (by rw [hstate, hsb])
      simp [stateMismatch, hsb]
  cases herr : truthyStr q.error <;> cases hcode : truthyStr q.code <;>
    simp [handleOAuthCallback, herr, hcode, hmis, resolvePending, hpend]

/-- C5 witness: a pending login, expected state `"good"`, callback carrying
state `"evil"` and a code: resolved `false`, no exchange. -/
theorem c5_witness :
    (handleOAuthCallback
        { stFresh with storedState := some "good", pendingLogin := some 1 }
        { code := some "c", state := some "evil", error := none } 1000
        (.ok { access_token := "a" })).resolved = some false ∧
    (handleOAuthCallback
        { stFresh with storedState := some "good", pendingLogin := some 1 }
        { code := some "c", state := some "evil", error := none } 1000
        (.ok { access_token := "a" })).exchangeCalled = false :=
  c5_state_mismatch_resolves_false_without_exchange _ _ _ _ "good" rfl rfl rfl
    (by decide)

/-- C8 counterexample: the block `data: {"ping": 1, "total_points": 100}`
decodes to JSON carrying the usage field `total_points`, yet the ping guard
(`ping` present while `points` is absent) suppresses the emission — the
claimed "if and only if" fails in the "if" direction. -/
theorem c8_counterexample :
    pingWithUsageDecode (sseEventData pingWithUsageBlock)
      = some ⟨true, false, true, false⟩ ∧
    hasUsageField ⟨true, false, true, false⟩ = true ∧
    parseSSE pingWithUsageDecode pingWithUsageBlock = false := by decide

/-- C8 (amended): for a block with no `event: keepalive` marker whose
extracted `data:` payload is nonempty and decodes, a usage event is emitted
iff the decoded JSON is not a ping message (`ping` present with `points`
absent) and carries at least one of the three usage fields — so a bare
`{"ping": 1}` heartbeat emits nothing. -/
theorem c8_emit_characterization
    (decode : List Char → Option SSEFields) (data : List Char) (f : SSEFields)
    (hka : containsSubL "event: keepalive".data data = false)
    (hne : (sseEventData data).isEmpty = false)
    (hdec : decode (sseEventData data) = some f) :
    parseSSE decode data = (!(f.ping && !f.points) && hasUsageField f) := by
  simp only [parseSSE, hka, hne, hdec, hasUsageField, Bool.false_eq_true,
    if_false, Bool.not_and, Bool.not_not]
  cases hp : f.ping <;> cases hpt : f.points <;> simp

/-- C8 witness: the spec's example block
`data: {"points": 10, "total_points": 100, "context_length": 4096}` emits a
usage event. -/
theorem c8_witness :
    parseSSE usageDecode usageBlock
      = (!((false : Bool) && !(true : Bool))
          && hasUsageField ⟨false, true, true, true⟩) :=
  c8_emit_characterization usageDecode usageBlock ⟨false, true, true, true⟩
    (by decide) (by decide) (by decide)

/-! ### Stream-invariant helper lemmas -/

theorem mem_cancelTimer {h : Option Nat} {live : List (Nat × TimerKind)}
    {p : Nat × TimerKind} (hp : p ∈ cancelTimer h live) : p ∈ live := by
  cases h with
  | none => exact hp
  | some i => exact List.mem_of_mem_filter hp

theorem cancelTimer_map_sublist (h : Option Nat) (live : List (Nat × TimerKind)) :
    List.Sublist ((cancelTimer h live).map Prod.fst) (live.map Prod.fst) := by
  cases h with
  | none => exact List.Sublist.refl _
  | some i => exact (List.filter_sublist _).map _

theorem bound_install (s : StreamState) (hb : ∀ p ∈ s.live, p.1 < s.nextId)
    (h : Option Nat) (k : TimerKind) :
    ∀ p ∈ cancelTimer h s.live ++ [(s.nextId, k)], p.1 < s.nextId + 1 := by
  intro p hp
  rcases List.mem_append.mp hp with hp | hp
  · exact Nat.lt_succ_of_lt (hb p (mem_cancelTimer hp))
  · rw [List.mem_singleton] at hp
    rw [hp]
    exact Nat.lt_succ_self _

theorem nodup_install (s : StreamState) (hb : ∀ p ∈ s.live, p.1 < s.nextId)
    (hnd : (s.live.map Prod.fst).Nodup) (h : Option Nat) (k : TimerKind) :
    ((cancelTimer h s.live ++ [(s.nextId, k)]).map Prod.fst).Nodup := by
  rw [List.map_append]
  refine List.Nodup.append
    (List.Nodup.sublist (cancelTimer_map_sublist h s.live) hnd) (by simp) ?_
  intro a ha ha'
  simp only [List.map_cons, List.map_nil, List.mem_singleton] at ha'
  subst ha'
  obtain ⟨p, hp, hfst⟩ := List.mem_map.mp ha
  exact absurd (hfst ▸ hb p (mem_cancelTimer hp)) (lt_irrefl _)

theorem streamInv_scheduleReconnect (s : StreamState) (h : StreamInv s) :
    StreamInv (scheduleReconnect s) := by
  obtain ⟨hb, hnd, htr⟩ := h
  refine ⟨bound_install s hb _ _, nodup_install s hb hnd _ _, ?_⟩
  intro p hp hpoll
  rcases List.mem_append.mp hp with hp | hp
  · exact htr p (mem_cancelTimer hp) hpoll
  · rw [List.mem_singleton] at hp
    rw [hp] at hpoll
    cases hpoll

theorem streamInv_setupPolling (s : StreamState) (h : StreamInv s) :
    StreamInv (setupPolling s) := by
  obtain ⟨hb, hnd, htr⟩ := h
  refine ⟨bound_install s hb _ _, nodup_install s hb hnd _ _, ?_⟩
  intro p hp hpoll
  rcases List.mem_append.mp hp with hp | hp
  · exfalso
    have hold := htr p (mem_cancelTimer hp) hpoll
    unfold cancelTimer at hp
    rw [hold] at hp
    have := List.of_mem_filter hp
    simp at this
  · rw [List.mem_singleton] at hp
    rw [hp]
    rfl

theorem streamInv_fetchEff (s : StreamState) (out : FetchOutcome) (h : StreamInv s) :
    StreamInv (fetchUsageDataEff s out).1 := by
  obtain ⟨hb, hnd, htr⟩ := h
  cases out with
  | ok => exact ⟨hb, hnd, htr⟩
  | fail => exact ⟨hb, hnd, htr⟩
  | auth401RefreshOk =>
    refine ⟨bound_install s hb none .retryAfter401,
            nodup_install s hb hnd none .retryAfter401, ?_⟩
    intro p hp hpoll
    rcases List.mem_append.mp hp with hp | hp
    · exact htr p hp hpoll
    · rw [List.mem_singleton] at hp
      rw [hp] at hpoll
      cases hpoll
  | auth401RefreshFail => exact streamInv_scheduleReconnect s ⟨hb, hnd, htr⟩

theorem streamInv_connectBegin (s : StreamState) (h : StreamInv s) :
    StreamInv (connectBeginEff s) := by
  unfold connectBeginEff
  split
  · exact h
  · exact h

theorem streamInv_setConnecting (s : StreamState) (b : Bool) (h : StreamInv s) :
    StreamInv { s with isConnecting := b } :=
  h

theorem streamInv_filterId (s : StreamState) (id : Nat) (h : StreamInv s) :
    StreamInv { s with live := s.live.filter (fun p => p.1 != id) } := by
  obtain ⟨hb, hnd, htr⟩ := h
  exact ⟨fun p hp => hb p (List.mem_of_mem_filter hp),
         List.Nodup.sublist ((List.filter_sublist _).map _) hnd,
         fun p hp hpoll => htr p (List.mem_of_mem_filter hp) hpoll⟩

theorem streamInv_disconnect (s : StreamState) (h : StreamInv s) :
    StreamInv (disconnectEff s) := by
  obtain ⟨hb, hnd, htr⟩ := h
  unfold disconnectEff
  refine ⟨?_, ?_, ?_⟩
  · intro p hp
    exact hb p (mem_cancelTimer (mem_cancelTimer hp))
  · exact List.Nodup.sublist
      ((cancelTimer_map_sublist _ _).trans (cancelTimer_map_sublist _ _)) hnd
  · intro p hp hpoll
    exfalso
    have hp1 : p ∈ cancelTimer s.reconnectTimeout s.live := mem_cancelTimer hp
    have hold := htr p (mem_cancelTimer hp1) hpoll
    unfold cancelTimer at hp
    rw [hold] at hp
    have := List.of_mem_filter hp
    simp at this

theorem streamInv_step (s : StreamState) (e : StreamEvent) (h : StreamInv s) :
    StreamInv (stepStream s e) := by
  cases e with
  | connectBegin => exact streamInv_connectBegin s h
  | connectEnd out =>
    simp only [stepStream]
    by_cases hc : s.isConnecting = true
    · rw [if_pos hc]
      have h1 := streamInv_fetchEff s out h
      cases out with
      | ok => exact streamInv_setConnecting _ _ (streamInv_setupPolling _ h1)
      | fail => exact streamInv_setConnecting _ _ (streamInv_scheduleReconnect _ h1)
      | auth401RefreshOk =>
        exact streamInv_setConnecting _ _ (streamInv_setupPolling _ h1)
      | auth401RefreshFail =>
        exact streamInv_setConnecting _ _ (streamInv_scheduleReconnect _ h1)
    · rw [if_neg hc]
      exact h
  | timerFire id out =>
    simp only [stepStream]
    cases (s.live.filter (fun p => p.1 == id)).head? with
    | none => exact h
    | some pk =>
      obtain ⟨i, k⟩ := pk
      cases k with
      | reconnect5s => exact streamInv_connectBegin _ (streamInv_filterId s id h)
      | retryAfter401 => exact streamInv_scheduleReconnect _ (streamInv_filterId s id h)
      | pollTick =>
        have h1 := streamInv_fetchEff s out h
        cases out with
        | ok => exact h1
        | fail => exact h1
        | auth401RefreshOk => exact h1
        | auth401RefreshFail => exact streamInv_scheduleReconnect _ h1
  | disconnectCall => exact streamInv_disconnect s h

theorem streamInv_init : StreamInv streamInit := by
  refine ⟨?_, ?_, ?_⟩ <;> simp [streamInit]

theorem streamInv_run (evs : List StreamEvent) :
    StreamInv (runStream streamInit evs) := by
  have haux : ∀ (l : List StreamEvent) (s : StreamState),
      StreamInv s → StreamInv (runStream s l) := by
    intro l
    induction l with
    | nil => intro s hs; exact hs
    | cons e rest ih => intro s hs; exact ih _ (streamInv_step s e hs)
  exact haux evs streamInit streamInv_init

theorem pollCount_nil_of_none (l : List (Nat × TimerKind))
    (hnp : ∀ p ∈ l, p.2 ≠ TimerKind.pollTick) : pollCount l = 0 := by
  unfold pollCount
  rw [List.length_eq_zero, List.filter_eq_nil_iff]
  intro p hp
  simp [hnp p hp]

theorem pollCount_le_one_aux (l : List (Nat × TimerKind)) (k : Nat)
    (htr : ∀ p ∈ l, p.2 = TimerKind.pollTick → p.1 = k)
    (hnd : (l.map Prod.fst).Nodup) : pollCount l ≤ 1 := by
  induction l with
  | nil => simp [pollCount]
  | cons q rest ih =>
    rw [List.map_cons, List.nodup_cons] at hnd
    by_cases hq : q.2 = TimerKind.pollTick
    · have hq1 : q.1 = k := htr q (List.mem_cons_self _ _) hq
      have hrest : ∀ p ∈ rest, p.2 ≠ TimerKind.pollTick := by
        intro p hp hpoll
        have hp1 : p.1 = k := htr p (List.mem_cons_of_mem _ hp) hpoll
        have hmem : q.1 ∈ rest.map Prod.fst := by
          rw [hq1, ← hp1]
          exact List.mem_map_of_mem Prod.fst hp
        exact hnd.1 hmem
      unfold pollCount
      rw [List.filter_cons]
      simp only [hq, beq_self_eq_true, if_true, List.length_cons]
      have := pollCount_nil_of_none rest hrest
      unfold pollCount at this
      omega
    · unfold pollCount
      rw [List.filter_cons]
      have hqb : (q.2 == TimerKind.pollTick) = false := by
        simp [hq]
      rw [hqb]
      simp only [Bool.false_eq_true, if_false]
      exact ih (fun p hp => htr p (List.mem_cons_of_mem _ hp)) hnd.2

theorem pollCount_le_one (s : StreamState) (h : StreamInv s) :
    pollCount s.live ≤ 1 := by
  obtain ⟨-, hnd, htr⟩ := h
  cases hpi : s.pollInterval with
  | none =>
    have h0 : pollCount s.live = 0 := by
      apply pollCount_nil_of_none
      intro p hp hpoll
      rw [htr p hp hpoll] at hpi
      cases hpi
    rw [h0]
    exact Nat.zero_le _
  | some k =>
    refine pollCount_le_one_aux s.live k (fun p hp hpoll => ?_) hnd
    have hsome := htr p hp hpoll
    rw [hpi] at hsome
    injection hsome with hk
    exact hk.symm

/-- C3 counterexample: `connect()` does not cancel a pending backoff timer.  A
failed attempt leaves the 5-second reconnect timer; a manual `connect()` made
while it pends proceeds (second attempt) and leaves the timer in place, and
when it fires a third attempt passes the guard — so the single `connect()`
call issued during backoff led to two proceeding attempts, where the claim
allows one effective attempt. -/
theorem c3_counterexample :
    (runStream streamInit
        [.connectBegin, .connectEnd .fail, .connectBegin, .connectEnd .ok]).attempts
      = 2 ∧
    (runStream streamInit
        [.connectBegin, .connectEnd .fail, .connectBegin, .connectEnd .ok]).reconnectTimeout
      = some 0 ∧
    (runStream streamInit
        [.connectBegin, .connectEnd .fail, .connectBegin, .connectEnd .ok,
         .timerFire 0 .ok]).attempts = 3 := by decide

/-- C3 (amended): in every reachable state of a `UsageStream` instance at most
one polling transport is live, and a `connect()` call made while another
`connect()` is still in flight is a no-op (one effective attempt); a pending
backoff timer, however, is not cancelled by `connect()`, so its later firing
can start an additional attempt. -/
theorem c3_single_transport_and_reentrant_guard :
    (∀ s : StreamState, s.isConnecting = true → stepStream s .connectBegin = s) ∧
    (∀ evs : List StreamEvent, pollCount (runStream streamInit evs).live ≤ 1) := by
  constructor
  · intro s hs
    simp [stepStream, connectBeginEff, hs]
  · intro evs
    exact pollCount_le_one _ (streamInv_run evs)

/-- C3 witness: a second `connect()` during an in-flight one changes nothing,
and a connected run holds at most one polling interval. -/
theorem c3_witness :
    stepStream
        { live := [], reconnectTimeout := none, pollInterval := none,
          isConnecting := true, nextId := 0, attempts := 1 } .connectBegin
      = { live := [], reconnectTimeout := none, pollInterval := none,
          isConnecting := true, nextId := 0, attempts := 1 } ∧
    pollCount (runStream streamInit [.connectBegin, .connectEnd .ok]).live ≤ 1 :=
  ⟨c3_single_transport_and_reentrant_guard.1 _ rfl,
   c3_single_transport_and_reentrant_guard.2 _⟩

end Costa
